import Mathlib

/-!
# Verification of the MoM-Funnel pipeline (src/MoM_Funnel.py)

Shallow embedding of the script's core: the two sanitize passes
(`sanitize_df`, `sanitize_row`), the two retry loops (`fetch_with_retry`,
`safe_update_sheet`), the per-query orchestration step and the whole run.

Cell values are modelled by `Val`; floating-point payloads are abstracted to
`FloatVal`, which distinguishes exactly what the script's `math.isnan` /
`math.isinf` tests distinguish: NaN, +inf, -inf, and finite values (a finite
float is carried as an `Int` payload — the sanitizers never inspect it).
A pandas DataFrame cell that is missing/NA is represented by `Val.vnull`
(the script's `clean_value` treats `None` this way; pandas' NaN fill for a
missing key is the `FloatVal.nan` case, also handled).
-/

inductive FloatVal : Type where
  | nan
  | pinf
  | ninf
  | fin (payload : Int)
deriving DecidableEq, Repr

inductive Val : Type where
  | vnull
  | vstr (s : String)
  | vbool (b : Bool)
  | vint (n : Int)
  | vfloat (f : FloatVal)
deriving DecidableEq, Repr

/-- `x` is a float that is NaN or ±infinity: exactly the cells caught by
`isinstance(x, float) and (math.isnan(x) or math.isinf(x))`. -/
def Val.isNonFinite : Val → Bool
  | .vfloat .nan => true
  | .vfloat .pinf => true
  | .vfloat .ninf => true
  | _ => false

/-- The element-wise effect of `df.replace([np.inf, -np.inf], None, inplace=True)`
(MoM_Funnel.py line 77): ±infinity becomes a null cell, everything else is kept. -/
def replace_inf_val : Val → Val
  | .vfloat .pinf => .vnull
  | .vfloat .ninf => .vnull
  | v => v

/-- `clean_value` (MoM_Funnel.py lines 79-85): `None` ↦ `""`, a non-finite float
↦ `""`, everything else passes through. -/
def clean_value : Val → Val
  | .vnull => .vstr ""
  | .vfloat .nan => .vstr ""
  | .vfloat .pinf => .vstr ""
  | .vfloat .ninf => .vstr ""
  | v => v

/-- The state of the caller's DataFrame object after `sanitize_df` ran: the
`inplace=True` replace has been applied to it. -/
def mutate_inplace (T : List (List Val)) : List (List Val) :=
  T.map (List.map replace_inf_val)

/-- `sanitize_df` (MoM_Funnel.py lines 76-88): in-place infinity replacement
followed by the element-wise `clean_value` map; the mapped table is returned. -/
def sanitize_df (T : List (List Val)) : List (List Val) :=
  (mutate_inplace T).map (List.map clean_value)

/-- One call to `sanitize_df` observed from the caller: first component is the
caller's table object after the call (mutated by the `inplace=True` replace),
second is the returned sanitized table. -/
def sanitize_df_call (T : List (List Val)) : List (List Val) × List (List Val) :=
  (mutate_inplace T, sanitize_df T)

/-- The cell map of `sanitize_row` (MoM_Funnel.py lines 107-111): a float that
is NaN or infinite becomes `None`; every other cell is unchanged. -/
def sanitize_row_cell (v : Val) : Val :=
  if v.isNonFinite then .vnull else v

/-- `sanitize_row` (MoM_Funnel.py lines 107-111), applied to each row of
`df.values.tolist()` just before `worksheet.update`. -/
def sanitize_row (row : List Val) : List Val :=
  row.map sanitize_row_cell

/-! ## The fetch retry loop -/

/-- Observable outcome of one retry loop: the backoff sleeps performed (in
order), the number of request attempts issued, and the final result.
`result = none` is the Python fall-through (`retries = 0`: the `for` loop body
never runs and the function returns `None`). -/
structure RetryOutcome (E R : Type) where
  sleeps : List Nat
  attemptsMade : Nat
  result : Option (Except E R)
deriving Repr

/-- `fetch_with_retry`'s loop (MoM_Funnel.py lines 61-73), one recursive step
per remaining iteration of `for attempt in range(1, retries + 1)`:
`remaining = retries - attempt + 1`. The request for attempt `a` is `req a`;
success returns at once, failure sleeps `step * a` iff attempts remain, and
the last failure is re-raised. -/
def retry_go {E R : Type} (step : Nat) (req : Nat → Except E R) :
    Nat → Nat → RetryOutcome E R
  | _, 0 => ⟨[], 0, none⟩
  | attempt, remaining + 1 =>
    match req attempt with
    | .ok r => ⟨[], 1, some (.ok r)⟩
    | .error e =>
      match remaining with
      | 0 => ⟨[], 1, some (.error e)⟩
      | m + 1 =>
        let rest := retry_go step req (attempt + 1) (m + 1)
        ⟨step * attempt :: rest.sleeps, rest.attemptsMade + 1, rest.result⟩

/-- `fetch_with_retry(url, headers, retries=5)` (MoM_Funnel.py lines 60-73);
the HTTP call of attempt `a` is abstracted as the oracle `req a`, the backoff
step is 10 time-units per attempt number. -/
def fetch_with_retry {E R : Type} (req : Nat → Except E R) (retries : Nat := 5) :
    RetryOutcome E R :=
  retry_go 10 req 1 retries

/-! ## The destination writer -/

/-- The parsed tabular result passed to the writer: ordered column names and
row-major data (`df.columns`, `df.values.tolist()`). -/
structure DF where
  header : List String
  rows : List (List Val)
deriving DecidableEq, Repr

/-- `df.empty`: the DataFrame has no rows or no columns. -/
def DF.empty (df : DF) : Bool :=
  df.rows.isEmpty || df.header.isEmpty

/-- The value grid sent to `worksheet.update`
(MoM_Funnel.py lines 103-114): header row followed by the row-sanitized data
rows (column names are serialized as strings). -/
def sheet_grid (df : DF) : List (List Val) :=
  (df.header.map Val.vstr) :: df.rows.map sanitize_row

/-- The A1-notation target range `f"A1:{chr(64 + cols)}{rows}"`
(MoM_Funnel.py lines 96-97 and 117) with `rows = len(df) + 1` and
`cols = len(df.columns)`. -/
def update_range (df : DF) : String :=
  "A1:" ++ (Char.ofNat (64 + df.header.length)).toString
    ++ toString (df.rows.length + 1)

/-- Observable outcome of `safe_update_sheet`: the worksheet cells after the
call, the range addressed by the successful update (if any), the backoff
sleeps, the number of attempts (each attempt issues one `clear` and one
`update` call), and the final result (`none` = Python fall-through when
`retries = 0`). -/
structure UpdateOutcome where
  sheet : List (List Val)
  rng : Option String
  sleeps : List Nat
  attemptsMade : Nat
  result : Option (Except Unit Bool)
deriving Repr

/-- The attempt loop of `safe_update_sheet` (MoM_Funnel.py lines 94-131),
one recursive step per remaining loop iteration
(`remaining = retries - attempt + 1`). Every attempt first clears the
worksheet; `upd a` tells whether attempt `a`'s `worksheet.update` call
succeeds. On success the sheet holds exactly the grid and `True` is returned;
on failure the loop sleeps `15 * a` iff attempts remain, re-raising the last
failure (leaving the sheet cleared). -/
def safe_update_go (upd : Nat → Bool) (df : DF) :
    Nat → Nat → List (List Val) → UpdateOutcome
  | _, 0, sheet => ⟨sheet, none, [], 0, none⟩
  | attempt, remaining + 1, _sheet =>
    if upd attempt then
      ⟨sheet_grid df, some (update_range df), [], 1, some (.ok true)⟩
    else
      match remaining with
      | 0 => ⟨[], none, [], 1, some (.error ())⟩
      | m + 1 =>
        let rest := safe_update_go upd df (attempt + 1) (m + 1) []
        ⟨rest.sheet, rest.rng, 15 * attempt :: rest.sleeps,
          rest.attemptsMade + 1, rest.result⟩

/-- `safe_update_sheet(worksheet, df, retries=5)` (MoM_Funnel.py lines
91-131), acting on the worksheet state `sheet`. -/
def safe_update_sheet (upd : Nat → Bool) (df : DF) (sheet : List (List Val))
    (retries : Nat := 5) : UpdateOutcome :=
  safe_update_go upd df 1 retries sheet

/-! ## Per-query orchestration and the whole run -/

/-- Observable outcome of one query's branch of the orchestrator
(MoM_Funnel.py lines 145-151 / 158-164): the destination sheet after the
branch, the number of `clear` and `update` calls issued to it, whether the
write step was skipped (empty result), and whether the branch raised. -/
structure QueryOutcome where
  sheet : List (List Val)
  clears : Nat
  updates : Nat
  skipped : Bool
  failed : Bool
deriving Repr

/-- One query's branch: if the parsed DataFrame is empty, only a warning is
logged; otherwise the frame is sanitized and written with
`safe_update_sheet`. Each write attempt issues one `clear` and one `update`
call. -/
def process_query (upd : Nat → Bool) (df : DF) (sheet : List (List Val))
    (retries : Nat := 5) : QueryOutcome :=
  if df.empty then
    ⟨sheet, 0, 0, true, false⟩
  else
    let clean : DF := ⟨df.header, sanitize_df df.rows⟩
    let out := safe_update_sheet upd clean sheet retries
    ⟨out.sheet, out.attemptsMade, out.attemptsMade, false,
      match out.result with
      | some (.ok _) => false
      | _ => true⟩

/-- Observable outcome of a whole run (MoM_Funnel.py lines 40-172): both
destination sheets, the number of login requests, the total number of query
fetch attempts, per-destination `clear`/`update` call counts, and whether the
run terminated normally. -/
structure RunOutcome where
  baseSheet : List (List Val)
  rfdSheet : List (List Val)
  loginCalls : Nat
  fetchCalls : Nat
  baseClears : Nat
  baseUpdates : Nat
  rfdClears : Nat
  rfdUpdates : Nat
  ok : Bool
deriving Repr

/-- The run: one login request; on a non-2xx login response
(`res.raise_for_status()`, line 49) the script aborts before any fetch or
sheet access. Otherwise: fetch Base with retry, process it, fetch RFD with
retry, process it; an exhausted fetch or write retry propagates out and
aborts the remainder. `req* a` is attempt `a` of the respective query fetch
(carrying the parsed table on success); `upd*` drives the sheet writes. -/
def run (login : Except Unit String) (reqBase reqRfd : Nat → Except Unit DF)
    (updBase updRfd : Nat → Bool) (baseSheet rfdSheet : List (List Val)) :
    RunOutcome :=
  match login with
  | .error _ => ⟨baseSheet, rfdSheet, 1, 0, 0, 0, 0, 0, false⟩
  | .ok _ =>
    let fb := fetch_with_retry reqBase
    match fb.result with
    | some (.ok dfb) =>
      let qb := process_query updBase dfb baseSheet
      if qb.failed then
        ⟨qb.sheet, rfdSheet, 1, fb.attemptsMade, qb.clears, qb.updates,
          0, 0, false⟩
      else
        let fr := fetch_with_retry reqRfd
        match fr.result with
        | some (.ok dfr) =>
          let qr := process_query updRfd dfr rfdSheet
          ⟨qb.sheet, qr.sheet, 1, fb.attemptsMade + fr.attemptsMade,
            qb.clears, qb.updates, qr.clears, qr.updates, !qr.failed⟩
        | _ =>
          ⟨qb.sheet, rfdSheet, 1, fb.attemptsMade + fr.attemptsMade,
            qb.clears, qb.updates, 0, 0, false⟩
    | _ => ⟨baseSheet, rfdSheet, 1, fb.attemptsMade, 0, 0, 0, 0, false⟩

instance {E R : Type} [DecidableEq E] [DecidableEq R] : DecidableEq (Except E R)
  | .ok x, .ok y => decidable_of_iff (x = y) (by simp)
  | .ok _, .error _ => isFalse fun h => Except.noConfusion h
  | .error _, .ok _ => isFalse fun h => Except.noConfusion h
  | .error x, .error y => decidable_of_iff (x = y) (by simp)

deriving instance DecidableEq for RetryOutcome

deriving instance DecidableEq for UpdateOutcome

deriving instance DecidableEq for QueryOutcome

deriving instance DecidableEq for RunOutcome

/-! ## Loop characterization lemmas -/

theorem retry_go_ok {E R : Type} (step : Nat) (req : Nat → Except E R)
    (e : Nat → E) (r : R) (N : Nat)
    (hfail : ∀ j, j < N → req j = .error (e j)) (hok : req N = .ok r) :
    ∀ m a, 1 ≤ a → a ≤ N → N ≤ a + m →
      retry_go step req a (m + 1) =
        ⟨(List.range' a (N - a)).map (fun j => step * j), N - a + 1,
          some (.ok r)⟩ := by
  intro m
  induction m with
  | zero =>
    intro a h1 h2 h3
    have ha : a = N := by omega
    subst ha
    simp [retry_go, hok]
  | succ m ih =>
    intro a h1 h2 h3
    by_cases hA : a = N
    · subst hA
      simp [retry_go, hok]
    · have hlt : a < N := by omega
      have hrec := ih (a + 1) (by omega) (by omega) (by omega)
      simp only [retry_go, hfail a hlt, hrec]
      have hN : N - a = (N - (a + 1)) + 1 := by omega
      rw [hN, List.range'_succ]
      simp

theorem retry_go_err {E R : Type} (step : Nat) (req : Nat → Except E R)
    (e : Nat → E) (hfail : ∀ j, req j = .error (e j)) :
    ∀ m a, retry_go step req a (m + 1) =
      ⟨(List.range' a m).map (fun j => step * j), m + 1,
        some (.error (e (a + m)))⟩ := by
  intro m
  induction m with
  | zero =>
    intro a
    simp [retry_go, hfail a]
  | succ m ih =>
    intro a
    simp only [retry_go, hfail a, ih (a + 1)]
    rw [List.range'_succ]
    have : a + 1 + m = a + (m + 1) := by omega
    rw [this]
    simp

theorem safe_update_go_ok (upd : Nat → Bool) (df : DF) (N : Nat)
    (hfail : ∀ j, j < N → upd j = false) (hok : upd N = true) :
    ∀ m a sheet, 1 ≤ a → a ≤ N → N ≤ a + m →
      safe_update_go upd df a (m + 1) sheet =
        ⟨sheet_grid df, some (update_range df),
          (List.range' a (N - a)).map (fun j => 15 * j), N - a + 1,
          some (.ok true)⟩ := by
  intro m
  induction m with
  | zero =>
    intro a sheet h1 h2 h3
    have ha : a = N := by omega
    subst ha
    simp [safe_update_go, hok]
  | succ m ih =>
    intro a sheet h1 h2 h3
    by_cases hA : a = N
    · subst hA
      simp [safe_update_go, hok]
    · have hlt : a < N := by omega
      have hrec := ih (a + 1) [] (by omega) (by omega) (by omega)
      simp only [safe_update_go, hfail a hlt, if_neg, Bool.false_eq_true,
        if_false, hrec]
      have hN : N - a = (N - (a + 1)) + 1 := by omega
      rw [hN, List.range'_succ]
      simp

theorem safe_update_go_err (upd : Nat → Bool) (df : DF)
    (hfail : ∀ j, upd j = false) :
    ∀ m a sheet, safe_update_go upd df a (m + 1) sheet =
      ⟨[], none, (List.range' a m).map (fun j => 15 * j), m + 1,
        some (.error ())⟩ := by
  intro m
  induction m with
  | zero =>
    intro a sheet
    simp [safe_update_go, hfail a]
  | succ m ih =>
    intro a sheet
    simp only [safe_update_go, hfail a, Bool.false_eq_true, if_false,
      ih (a + 1) []]
    rw [List.range'_succ]
    simp

/-! ## Pointwise facts about the sanitizers -/

theorem sanitize_cell_eq (v : Val) :
    clean_value (replace_inf_val v) =
      if v = Val.vnull ∨ v.isNonFinite = true then Val.vstr "" else v := by
  cases v with
  | vfloat f => cases f <;> rfl
  | _ => rfl

theorem sanitize_df_eq (T : List (List Val)) :
    sanitize_df T = T.map (List.map
      (fun v => if v = Val.vnull ∨ v.isNonFinite = true then Val.vstr "" else v)) := by
  unfold sanitize_df mutate_inplace
  rw [List.map_map]
  have h : (List.map clean_value ∘ List.map replace_inf_val) =
      List.map fun v =>
        if v = Val.vnull ∨ v.isNonFinite = true then Val.vstr "" else v := by
    funext row
    simp only [Function.comp_apply, List.map_map]
    exact List.map_congr_left fun v _ => sanitize_cell_eq v
  rw [h]

theorem map_fix_of_map_eq_self {α : Type} (f : α → α) :
    ∀ l : List α, l.map f = l → ∀ x ∈ l, f x = x := by
  intro l
  induction l with
  | nil => intro _ x hx; cases hx
  | cons y ys ih =>
    intro h x hx
    rw [List.map_cons, List.cons.injEq] at h
    cases hx with
    | head => exact h.1
    | tail _ hmem => exact ih h.2 x hmem

/-! ## Claim theorems -/

/-- C1: the DataFrame-level sanitize pass `sanitize_df` yields a table with no
NaN and no ±infinity; every null/missing cell becomes the empty string, and
every other finite scalar (string, boolean, integer, finite float) is
unchanged, cell by cell. -/
theorem sanitize_df_clean (T : List (List Val)) :
    (∀ row ∈ sanitize_df T, ∀ v ∈ row, v.isNonFinite = false) ∧
    sanitize_df T = T.map (List.map
      (fun v => if v = Val.vnull ∨ v.isNonFinite = true then Val.vstr ""
                else v)) := by
  refine ⟨?_, sanitize_df_eq T⟩
  intro row hrow v hv
  rw [sanitize_df_eq] at hrow
  simp only [List.mem_map] at hrow
  obtain ⟨row0, -, rfl⟩ := hrow
  simp only [List.mem_map] at hv
  obtain ⟨v0, -, rfl⟩ := hv
  by_cases h : v0 = Val.vnull ∨ v0.isNonFinite = true
  · rw [if_pos h]; rfl
  · rw [if_neg h]
    push_neg at h
    exact Bool.not_eq_true _ ▸ h.2

/-- C9: the DataFrame-level sanitize pass is idempotent. -/
theorem sanitize_df_idempotent (T : List (List Val)) :
    sanitize_df (sanitize_df T) = sanitize_df T := by
  have hg : ∀ v, clean_value (replace_inf_val (clean_value (replace_inf_val v)))
      = clean_value (replace_inf_val v) := by
    intro v
    cases v with
    | vfloat f => cases f <;> rfl
    | _ => rfl
  unfold sanitize_df mutate_inplace
  simp only [List.map_map]
  apply List.map_congr_left
  intro row _
  simp only [Function.comp_apply, List.map_map]
  exact List.map_congr_left fun v _ => hg v

/-- C8: the second, row-oriented sanitize pass inside the writer (applied to
every row of the grid right before `worksheet.update`) maps every non-finite
float cell to the null marker and passes every other cell through unchanged;
its marker (`None`) is distinct from the first pass's empty string. -/
theorem sanitize_row_second_pass :
    (∀ row : List Val, sanitize_row row =
      row.map (fun v => if v.isNonFinite = true then Val.vnull else v)) ∧
    (∀ df : DF, sheet_grid df =
      (df.header.map Val.vstr) :: df.rows.map sanitize_row) ∧
    Val.vnull ≠ Val.vstr "" := by
  exact ⟨fun row => rfl, fun df => rfl, by decide⟩

/-- C10: `sanitize_df` is not pure in its argument: whenever the input table
contains a ±infinity cell, the caller's table object is mutated in place by
the `inplace=True` replace, so after the call it differs from the original. -/
theorem sanitize_df_mutates_input (T : List (List Val)) (row : List Val)
    (hrow : row ∈ T)
    (hv : Val.vfloat FloatVal.pinf ∈ row ∨ Val.vfloat FloatVal.ninf ∈ row) :
    (sanitize_df_call T).1 ≠ T := by
  intro hEq
  simp only [sanitize_df_call, mutate_inplace] at hEq
  have hrowfix :=
    map_fix_of_map_eq_self (List.map replace_inf_val) T hEq row hrow
  rcases hv with h | h
  · have hcell := map_fix_of_map_eq_self replace_inf_val row hrowfix _ h
    simp [replace_inf_val] at hcell
  · have hcell := map_fix_of_map_eq_self replace_inf_val row hrowfix _ h
    simp [replace_inf_val] at hcell

/-- Witness for C10 at the one-cell table `[[+inf]]`. -/
theorem sanitize_df_mutates_input_witness :
    (sanitize_df_call [[Val.vfloat FloatVal.pinf]]).1
      ≠ [[Val.vfloat FloatVal.pinf]] :=
  sanitize_df_mutates_input [[Val.vfloat FloatVal.pinf]]
    [Val.vfloat FloatVal.pinf] (by simp) (Or.inl (by simp))

/-- C2: `fetch_with_retry` with attempt ceiling `retries` (default 5): if the
request fails on attempts `1..N-1` and succeeds on attempt `N ≤ retries`, the
helper returns the success after exactly `N` attempts, having slept the
strictly increasing backoffs `10·1, …, 10·(N-1)` before each retry; if the
request fails on every attempt, it performs exactly `retries` attempts and
`retries - 1` sleeps (`10·1, …, 10·(retries-1)`) and propagates the final
failure. -/
theorem fetch_with_retry_spec {E R : Type} (retries N : Nat)
    (req reqF : Nat → Except E R) (e eF : Nat → E) (r : R)
    (h1 : 1 ≤ N) (h2 : N ≤ retries)
    (hfail : ∀ j, j < N → req j = .error (e j)) (hok : req N = .ok r)
    (hallfail : ∀ j, reqF j = .error (eF j)) :
    fetch_with_retry req retries =
      ⟨(List.range' 1 (N - 1)).map (fun j => 10 * j), N, some (.ok r)⟩ ∧
    List.Pairwise (· < ·) ((List.range' 1 (N - 1)).map (fun j => 10 * j)) ∧
    fetch_with_retry reqF retries =
      ⟨(List.range' 1 (retries - 1)).map (fun j => 10 * j), retries,
        some (.error (eF retries))⟩ ∧
    ((List.range' 1 (retries - 1)).map (fun j => 10 * j)).length
      = retries - 1 ∧
    (∀ q : Nat → Except E R, fetch_with_retry q = fetch_with_retry q 5) := by
  obtain ⟨m, rfl⟩ : ∃ m, retries = m + 1 := ⟨retries - 1, by omega⟩
  refine ⟨?_, ?_, ?_, ?_, fun q => rfl⟩
  · have hA := retry_go_ok 10 req e r N hfail hok m 1 (by omega) h1 (by omega)
    unfold fetch_with_retry
    rw [hA]
    have hN : N - 1 + 1 = N := by omega
    rw [hN]
  · exact List.pairwise_map.mpr
      ((List.pairwise_lt_range' 1 (N - 1)).imp (fun h => by omega))
  · have hB := retry_go_err 10 reqF eF hallfail m 1
    unfold fetch_with_retry
    rw [hB]
    have hm : 1 + m = m + 1 := by omega
    rw [hm]
    simp
  · simp

/-- Witness for C2: `retries = 5`; a request failing on attempts 1-2 and
succeeding on attempt 3, and a request failing on every attempt. -/
theorem fetch_with_retry_spec_witness :
    fetch_with_retry
        (fun j => if j < 3 then (Except.error j : Except Nat Nat) else .ok 42)
        5 =
      ⟨[10, 20], 3, some (.ok 42)⟩ ∧
    fetch_with_retry (fun j => (Except.error j : Except Nat Nat)) 5 =
      ⟨[10, 20, 30, 40], 5, some (.error 5)⟩ := by
  have h := fetch_with_retry_spec 5 3
    (fun j => if j < 3 then (Except.error j : Except Nat Nat) else .ok 42)
    (fun j => (Except.error j : Except Nat Nat))
    (fun j => j) (fun j => j) 42
    (by omega) (by omega)
    (fun j hj => by simp [hj])
    (by simp)
    (fun j => rfl)
  refine ⟨?_, ?_⟩
  · rw [h.1]; decide
  · rw [h.2.2.1]; decide

/-- C6: the writer's retry loop has the same shape as the fetch retry —
attempt loop, sleep iff attempts remain, re-raise on exhaustion — but with
backoff `15·attemptNumber` (15, 30, 45, 60 on attempts 1-4) and the same
default ceiling of 5 attempts; exhausting every attempt propagates the
failure to the orchestrator. -/
theorem safe_update_retry_policy (retries N : Nat) (upd updF : Nat → Bool)
    (df : DF) (stale staleF : List (List Val))
    (h1 : 1 ≤ N) (h2 : N ≤ retries)
    (hfail : ∀ j, j < N → upd j = false) (hok : upd N = true)
    (hallfail : ∀ j, updF j = false) :
    safe_update_sheet upd df stale retries =
      ⟨sheet_grid df, some (update_range df),
        (List.range' 1 (N - 1)).map (fun j => 15 * j), N,
        some (.ok true)⟩ ∧
    safe_update_sheet updF df staleF retries =
      ⟨[], none, (List.range' 1 (retries - 1)).map (fun j => 15 * j),
        retries, some (.error ())⟩ ∧
    ((List.range' 1 (retries - 1)).map (fun j => 15 * j)).length
      = retries - 1 ∧
    (∀ (u : Nat → Bool) (d : DF) (s : List (List Val)),
      safe_update_sheet u d s = safe_update_sheet u d s 5) := by
  obtain ⟨m, rfl⟩ : ∃ m, retries = m + 1 := ⟨retries - 1, by omega⟩
  refine ⟨?_, ?_, ?_, fun u d s => rfl⟩
  · have hA := safe_update_go_ok upd df N hfail hok m 1 stale
      (by omega) h1 (by omega)
    unfold safe_update_sheet
    rw [hA]
    have hN : N - 1 + 1 = N := by omega
    rw [hN]
  · have hB := safe_update_go_err updF df hallfail m 1 staleF
    unfold safe_update_sheet
    rw [hB]
    simp
  · simp

/-- Witness for C6: `retries = 5`; a write failing on attempts 1-2 and
succeeding on attempt 3, and a write failing on every attempt, on the
one-row table `⟨["a"], [[1]]⟩`. -/
theorem safe_update_retry_policy_witness :
    safe_update_sheet (fun j => decide (3 ≤ j)) ⟨["a"], [[Val.vint 1]]⟩
        [[Val.vstr "stale"]] 5 =
      ⟨[[Val.vstr "a"], [Val.vint 1]], some "A1:A2", [15, 30], 3,
        some (.ok true)⟩ ∧
    safe_update_sheet (fun _ => false) ⟨["a"], [[Val.vint 1]]⟩
        [[Val.vstr "stale"]] 5 =
      ⟨[], none, [15, 30, 45, 60], 5, some (.error ())⟩ := by
  have h := safe_update_retry_policy 5 3 (fun j => decide (3 ≤ j))
    (fun _ => false) ⟨["a"], [[Val.vint 1]]⟩
    [[Val.vstr "stale"]] [[Val.vstr "stale"]]
    (by omega) (by omega)
    (fun j hj => by simp; omega)
    (by simp)
    (fun j => rfl)
  refine ⟨?_, ?_⟩
  · rw [h.1]; decide
  · rw [h.2.1]; decide

/-- C4: a successful write fully replaces the destination: whatever stale
rows the sheet held, afterwards it holds exactly the header row followed by
the sanitized data rows, and the update is addressed to
`A1:<colLetter><rowCount+1>`; in particular a 3-row × 2-column result is
addressed to `A1:B4`. -/
theorem overwrite_full_replace (stale : List (List Val)) (df : DF)
    (retries : Nat) (h : 1 ≤ retries) :
    (safe_update_sheet (fun _ => true) df stale retries).sheet =
      (df.header.map Val.vstr) :: df.rows.map sanitize_row ∧
    (safe_update_sheet (fun _ => true) df stale retries).rng =
      some ("A1:" ++ (Char.ofNat (64 + df.header.length)).toString
        ++ toString (df.rows.length + 1)) ∧
    (df.rows.length = 3 → df.header.length = 2 →
      (safe_update_sheet (fun _ => true) df stale retries).rng
        = some "A1:B4") := by
  obtain ⟨m, rfl⟩ : ∃ m, retries = m + 1 := ⟨retries - 1, by omega⟩
  have hmain : safe_update_sheet (fun _ => true) df stale (m + 1) =
      ⟨sheet_grid df, some (update_range df), [], 1, some (.ok true)⟩ := by
    unfold safe_update_sheet
    rw [safe_update_go.eq_def]
    simp
  refine ⟨by rw [hmain]; rfl, by rw [hmain]; rfl, ?_⟩
  intro h3 hc
  rw [hmain]
  simp only [update_range, h3, hc]
  decide

/-- Witness for C4: stale sheet, 3 rows × 2 columns, `retries = 5`. -/
theorem overwrite_full_replace_witness :
    (safe_update_sheet (fun _ => true)
        ⟨["a", "b"], [[Val.vint 1, Val.vnull],
          [Val.vfloat FloatVal.nan, Val.vbool true],
          [Val.vstr "x", Val.vfloat (FloatVal.fin 7)]]⟩
        [[Val.vstr "stale1"], [Val.vstr "stale2"]] 5).sheet =
      [[Val.vstr "a", Val.vstr "b"],
        [Val.vint 1, Val.vnull],
        [Val.vnull, Val.vbool true],
        [Val.vstr "x", Val.vfloat (FloatVal.fin 7)]] ∧
    (safe_update_sheet (fun _ => true)
        ⟨["a", "b"], [[Val.vint 1, Val.vnull],
          [Val.vfloat FloatVal.nan, Val.vbool true],
          [Val.vstr "x", Val.vfloat (FloatVal.fin 7)]]⟩
        [[Val.vstr "stale1"], [Val.vstr "stale2"]] 5).rng
      = some "A1:B4" := by
  have h := overwrite_full_replace
    [[Val.vstr "stale1"], [Val.vstr "stale2"]]
    ⟨["a", "b"], [[Val.vint 1, Val.vnull],
      [Val.vfloat FloatVal.nan, Val.vbool true],
      [Val.vstr "x", Val.vfloat (FloatVal.fin 7)]]⟩
    5 (by omega)
  refine ⟨?_, h.2.2 (by decide) (by decide)⟩
  rw [h.1]
  decide

/-- C5 (the code violates the claimed boundary handling): with exactly 26
columns the computed range ends in `Z`, but with 27 columns `chr(64 + 27)`
silently overflows past `Z` to `'['` — the writer neither rejects the table
nor uses multi-letter addressing; it addresses the invalid range `A1:[5`. -/
theorem column_letter_overflow :
    update_range ⟨List.replicate 26 "c",
      List.replicate 4 (List.replicate 26 Val.vnull)⟩ = "A1:Z5" ∧
    update_range ⟨List.replicate 27 "c",
      List.replicate 4 (List.replicate 27 Val.vnull)⟩ = "A1:[5" ∧
    (safe_update_sheet (fun _ => true)
      ⟨List.replicate 27 "c", List.replicate 4 (List.replicate 27 Val.vnull)⟩
      [] 5).rng = some "A1:[5" ∧
    ('[').isUpper = false := by
  refine ⟨by decide, by decide, ?_, by decide⟩
  decide

/-- C3: a query whose fetched result has zero rows is only logged as a
warning: the write step is skipped entirely — no clear and no update call is
issued — the destination sheet stays exactly in its pre-run state and the
branch does not raise; at run level an empty Base result leaves the Base
sheet untouched with zero Base clears/updates while the run continues to the
RFD query's fetch. -/
theorem empty_result_skips_write (upd : Nat → Bool) (header : List String)
    (sheet : List (List Val)) (retries : Nat) :
    process_query upd ⟨header, []⟩ sheet retries =
      ⟨sheet, 0, 0, true, false⟩ ∧
    (∀ (tok : String) (reqRfd : Nat → Except Unit DF) (updRfd : Nat → Bool)
        (rfdSheet : List (List Val)),
      (run (.ok tok) (fun _ => .ok ⟨header, []⟩) reqRfd upd updRfd sheet
          rfdSheet).baseSheet = sheet ∧
      (run (.ok tok) (fun _ => .ok ⟨header, []⟩) reqRfd upd updRfd sheet
          rfdSheet).baseClears = 0 ∧
      (run (.ok tok) (fun _ => .ok ⟨header, []⟩) reqRfd upd updRfd sheet
          rfdSheet).baseUpdates = 0 ∧
      (run (.ok tok) (fun _ => .ok ⟨header, []⟩) reqRfd upd updRfd sheet
          rfdSheet).fetchCalls =
        1 + (fetch_with_retry reqRfd).attemptsMade) := by
  have hq : process_query upd ⟨header, []⟩ sheet = ⟨sheet, 0, 0, true, false⟩ :=
    rfl
  refine ⟨rfl, ?_⟩
  intro tok reqRfd updRfd rfdSheet
  have hfb : fetch_with_retry (fun _ => (.ok ⟨header, []⟩ : Except Unit DF)) =
      ⟨[], 1, some (.ok ⟨header, []⟩)⟩ := rfl
  simp only [run, hfb, hq]
  rcases hres : (fetch_with_retry reqRfd).result with _ | res
  · simp [hres]
  · rcases res with er | dfr <;> simp [hres]

/-- C7: exactly one login request is issued per run, with no retry; a failed
login (non-2xx or network error) aborts the run immediately — zero fetch
attempts, zero clears, zero updates, both destination sheets exactly in
their pre-run state. -/
theorem login_failure_aborts_run (reqBase reqRfd : Nat → Except Unit DF)
    (updBase updRfd : Nat → Bool) (bs rs : List (List Val)) :
    run (.error ()) reqBase reqRfd updBase updRfd bs rs =
      ⟨bs, rs, 1, 0, 0, 0, 0, 0, false⟩ ∧
    (∀ login : Except Unit String,
      (run login reqBase reqRfd updBase updRfd bs rs).loginCalls = 1) := by
  refine ⟨rfl, ?_⟩
  intro login
  cases login with
  | error e => rfl
  | ok tok =>
    simp only [run]
    rcases hb : (fetch_with_retry reqBase).result with _ | resb
    · simp [hb]
    · rcases resb with eb | dfb
      · simp [hb]
      · simp only [hb]
        by_cases hf : (process_query updBase dfb bs).failed = true
        · simp [hf]
        · simp only [Bool.not_eq_true] at hf
          simp only [hf]
          rcases hr : (fetch_with_retry reqRfd).result with _ | resr
          · simp [hr]
          · rcases resr with er | dfr <;> simp [hr]
